import Mathlib

/-!
Verification development for the browser-relay MCP server
(`src-mcpserver/src/xhs-browser.ts` and the tool classes consuming it).

The JavaScript source is shallowly embedded: effectful interaction with the
hidden browser window is modelled by an explicit interaction trace (a list of
browser responses consumed one per round), module-level mutable state is
modelled by explicit state passing, and the filesystem write performed by
`downloadCsvData` is recorded in the returned value instead of performed.
-/

namespace XhsRelay

/-! ## String helpers

Character-list based re-implementations of the JavaScript string operations
used by the source (`includes`, `split`, `endsWith`, `trim`, `join`,
`replace(/"/g,'""')`), kept structural so that concrete instances evaluate. -/

/-- Model of JavaScript `String.prototype.includes` for a single character. -/
def strContains (s : String) (c : Char) : Bool :=
  s.data.contains c

/-- Boolean infix test on character lists (needle occurs contiguously in the
haystack). -/
def listInfixOf (needle : List Char) : List Char → Bool
  | [] => needle.isEmpty
  | c :: rest => needle.isPrefixOf (c :: rest) || listInfixOf needle rest

/-- Model of JavaScript `needle` being a substring of `haystack`
(`haystack.includes(needle)`). -/
def strInfix (needle haystack : String) : Bool :=
  listInfixOf needle.data haystack.data

/-- Model of JavaScript `String.prototype.endsWith`. -/
def strEndsWith (s suffix : String) : Bool :=
  suffix.data.isSuffixOf s.data

/-- Model of JavaScript `String.prototype.trim`: whitespace stripped from
both ends. -/
def strTrim (s : String) : String :=
  String.mk (((s.data.dropWhile Char.isWhitespace).reverse.dropWhile Char.isWhitespace).reverse)

/-- Splitting a character list at every occurrence of a separator character;
the JS `split` contract: the result always has at least one (possibly empty)
piece. -/
def splitAtChar (c : Char) : List Char → List (List Char)
  | [] => [[]]
  | x :: xs =>
    let r := splitAtChar c xs
    if x = c then [] :: r
    else
      match r with
      | [] => [[x]]
      | y :: ys => (x :: y) :: ys

/-- Model of JavaScript `String.prototype.split` with a one-character
separator. -/
def strSplitOn (c : Char) (s : String) : List String :=
  (splitAtChar c s.data).map String.mk

/-- Model of JavaScript `Array.prototype.join` on an array of strings. -/
def joinWith (sep : String) : List String → String
  | [] => ""
  | [s] => s
  | s :: rest => s ++ sep ++ joinWith sep rest

/-- Model of the source's `value.replace(/"/g, '""')`: every double quote is
doubled. -/
def replaceQuotes : List Char → List Char
  | [] => []
  | c :: cs => if c = '\"' then '\"' :: '\"' :: replaceQuotes cs else c :: replaceQuotes cs

/-! ## Remote Call Bridge (`evalJs` in `xhs-browser.ts`)

One round of `evalJs` either finds the browser parked on the captcha page
(`location.href` contains `web-login/captcha`, so no script is evaluated) or
evaluates the script and obtains a result whose `JSON.stringify` rendering is
some body string.  The interaction trace lists those rounds in order. -/

/-- The rate-limit marker substring the source greps the response body for. -/
def rateLimitMarker : String := "访问频次异常"

/-- The fixed failure message `evalJs` returns once `tryCount > 3`. -/
def failureMessage : String := "执行失败！已重试3次！"

/-- One round of interaction with the browser window, as seen by `evalJs`:
either the window is on the verification/captcha page (so the round performs
no evaluation), or the evaluation ran and produced a result whose JSON
stringification is `body`. -/
inductive BrowserStep where
  | captchaPage
  | evalResult (body : String)
deriving DecidableEq, Repr

/-- Outcome of `evalJs`: the evaluated value, the fixed retry-exhausted
failure message, or the model artifact for a trace that ended while the
function was still looping. -/
inductive EvalOutcome where
  | value (body : String)
  | failure (msg : String)
  | outOfTrace
deriving DecidableEq, Repr

/-- Shallow embedding of `evalJs(code, tryCount)` from `xhs-browser.ts`.
Returns the outcome together with the list of sleep durations (in seconds)
performed, in order.  Mirrors the source: `tryCount > 3` returns the fixed
failure string; a captcha page sleeps 3 seconds and recurses with the same
`tryCount`; a result body containing the rate-limit marker sleeps
`2 + tryCount` seconds and recurses with `tryCount + 1`; otherwise the result
is returned. -/
def evalJs (steps : List BrowserStep) (tryCount : Nat) : EvalOutcome × List Nat :=
  if tryCount > 3 then (.failure failureMessage, [])
  else
    match steps with
    | [] => (.outOfTrace, [])
    | .captchaPage :: rest =>
      let r := evalJs rest tryCount
      (r.1, 3 :: r.2)
    | .evalResult body :: rest =>
      if strInfix rateLimitMarker body then
        let r := evalJs rest (tryCount + 1)
        (r.1, (2 + tryCount) :: r.2)
      else (.value body, [])

/-! ## Browser Session Manager (`getBrowser` in `xhs-browser.ts`)

The module-level mutable `browser` variable is modelled by explicit state
passing: `getBrowser` maps the current cached window (if any) to the window
returned to the caller together with the updated cache. -/

/-- The observable attributes of the Electron `BrowserWindow` the source
constructs: whether it is enabled, whether it was created shown
(the `show` option), and its navigated URL. -/
structure BrowserWin where
  enabled : Bool
  shown : Bool
  url : String
deriving DecidableEq, Repr

/-- The window `getBrowser` constructs when no live window is cached:
`new BrowserWindow({width:1024, height:768, show:true, ...})` followed by
`loadURL('https://www.xiaohongshu.com')`. -/
def newBrowserWindow : BrowserWin :=
  ⟨true, true, "https://www.xiaohongshu.com"⟩

/-- Shallow embedding of `getBrowser()`: given the cached module-level
`browser` value, returns the window handed to the caller and the new cache.
A cached enabled window is returned unchanged; otherwise a fresh window is
constructed and cached. -/
def getBrowser : Option BrowserWin → BrowserWin × Option BrowserWin
  | some b => if b.enabled then (b, some b) else (newBrowserWindow, some newBrowserWindow)
  | none => (newBrowserWindow, some newBrowserWindow)

/-! ## Tabular Exporter: `downloadCsvData` in `xhs-browser.ts`

The module-level `SAVE_DATA_PATH` is passed explicitly (the empty string is
the unset state, matching the JS falsy check), and the `fs.writeFileSync`
call is recorded in the `written` field instead of performed. -/

/-- Result object of `downloadCsvData`, with the performed filesystem write
recorded as the pair (file path, file contents). -/
structure CsvDownloadResult where
  error : String
  link : Option String
  written : Option (String × String)
deriving DecidableEq, Repr

/-- Model of `path.join(dir, name)` for a directory and one plain segment. -/
def pathJoin (dir name : String) : String := dir ++ "/" ++ name

/-- Shallow embedding of `downloadCsvData(name, data)`; `savePath` is the
module-level `SAVE_DATA_PATH` ("" when never set). -/
def downloadCsvData (savePath name data : String) : CsvDownloadResult :=
  if savePath = "" then ⟨"未设置数据存储目录", none, none⟩
  else
    let filePath := pathJoin savePath (if strEndsWith name ".csv" then name else name ++ ".csv")
    ⟨"", some filePath, some (filePath, data)⟩

/-! ## JSON values and `jsonToCsv` in `xhs-browser.ts` -/

/-- JSON values as manipulated by `jsonToCsv`.  Numeric values appearing in
the exported rows are non-negative integer counts, modelled as `Nat` and
displayed in decimal exactly as JavaScript displays integers. -/
inductive JsonValue where
  | str (s : String)
  | num (n : Nat)
  | bool (b : Bool)
  | null
  | arr (xs : List JsonValue)
  | obj (fields : List (String × JsonValue))

/-- JSON string escaping used by `jsonStringify`. -/
def escapeJsonChars : List Char → List Char
  | [] => []
  | c :: cs =>
    if c = '\"' then '\\' :: '\"' :: escapeJsonChars cs
    else if c = '\\' then '\\' :: '\\' :: escapeJsonChars cs
    else if c = '\n' then '\\' :: 'n' :: escapeJsonChars cs
    else c :: escapeJsonChars cs

mutual

/-- Model of `JSON.stringify` on the embedded JSON values (string escaping of
the quote, backslash and newline characters; crafted keys with other escaped
characters do not occur in the exported rows). -/
def jsonStringify : JsonValue → String
  | .str s => "\"" ++ String.mk (escapeJsonChars s.data) ++ "\""
  | .num n => Nat.repr n
  | .bool b => if b then "true" else "false"
  | .null => "null"
  | .arr xs => "[" ++ joinWith "," (stringifyList xs) ++ "]"
  | .obj fs => "\x7b" ++ joinWith "," (stringifyFields fs) ++ "\x7d"

/-- Stringification of the elements of a JSON array, in order. -/
def stringifyList : List JsonValue → List String
  | [] => []
  | v :: vs => jsonStringify v :: stringifyList vs

/-- Stringification of the key/value pairs of a JSON object, in order. -/
def stringifyFields : List (String × JsonValue) → List String
  | [] => []
  | (k, v) :: fs =>
    ("\"" ++ String.mk (escapeJsonChars k.data) ++ "\":" ++ jsonStringify v) :: stringifyFields fs

end

/-- Key lookup in a JSON object, modelling JavaScript `part in value` and
`value[part]` for plain objects (first binding wins). -/
def lookupField (key : String) : List (String × JsonValue) → Option JsonValue
  | [] => none
  | (k, v) :: fs => if k = key then some v else lookupField key fs

/-- Parsing of a decimal array index, for the `part in value` test when the
resolved value is a JSON array (canonical numeric index strings only; the
prototype keys of JS arrays, such as `length`, never occur in the field maps
the tools pass). -/
def parseIndex (s : String) : Option Nat :=
  if s ≠ "" ∧ s.data.all Char.isDigit then
    some (s.data.foldl (fun acc c => acc * 10 + (c.toNat - 48)) 0)
  else none

/-- Shallow embedding of the nested-field descent inside `jsonToCsv`: the
dot-separated path parts are followed one by one; any part whose key is
missing (or whose parent is not an object/array, including `null` and
primitives, which fail the JS `value && typeof value === "object"` guard)
yields the empty string. -/
def resolvePath : JsonValue → List String → JsonValue
  | v, [] => v
  | .obj fs, part :: rest =>
    match lookupField part fs with
    | some w => resolvePath w rest
    | none => .str ""
  | .arr xs, part :: rest =>
    match parseIndex part with
    | some i =>
      match xs.get? i with
      | some w => resolvePath w rest
      | none => .str ""
    | none => .str ""
  | _, _ :: _ => .str ""

/-- Rendering of one element of an array-valued cell: the source maps
`v => typeof v === "object" ? JSON.stringify(v) : v` over the array before
joining, and `Array.prototype.join` converts the remaining primitives with
`String()` (JS `typeof null` is `"object"`, so `null` becomes `"null"`). -/
def renderArrayElem : JsonValue → String
  | .obj fs => jsonStringify (.obj fs)
  | .arr xs => jsonStringify (.arr xs)
  | .null => jsonStringify .null
  | .str s => s
  | .num n => Nat.repr n
  | .bool b => if b then "true" else "false"

/-- CSV quoting from the source: a string containing a comma, newline or
double quote is wrapped in double quotes with every embedded double quote
doubled; other strings pass through unchanged. -/
def quoteIfNeeded (s : String) : String :=
  if strContains s ',' || strContains s '\n' || strContains s '\"' then
    "\"" ++ String.mk (replaceQuotes s.data) ++ "\""
  else s

/-- Rendering of one resolved cell value, as the source leaves it just before
`row.join(",")`: arrays are joined with the array delimiter (objects inside
them JSON-stringified) and then quoted if needed; strings are quoted if
needed; numbers and booleans print with `String()`; `null` prints as the
empty string under `Array.prototype.join`; a plain object reaches `join`
unconverted and prints as `[object Object]`. -/
def renderCell (arrayDelimiter : String) : JsonValue → String
  | .arr xs => quoteIfNeeded (joinWith arrayDelimiter (xs.map renderArrayElem))
  | .str s => quoteIfNeeded s
  | .num n => Nat.repr n
  | .bool b => if b then "true" else "false"
  | .null => ""
  | .obj _ => "[object Object]"

/-- Parsing of one `header@path` field spec in `jsonToCsv`: exactly one `@`
separates header from path; otherwise (no `@`, or several) the first piece is
both header and path. -/
def parseField (field : String) : String × String :=
  match strSplitOn '@' field with
  | [h, p] => (h, p)
  | parts => (parts.headD "", parts.headD "")

/-- Shallow embedding of `jsonToCsv(jsonData, fields, arrayDelimiter)`: the
`throw` on empty `fields` becomes `Except.error` (the non-array input checks
are enforced by the types); otherwise the header line is followed by one
rendered line per row, each line terminated by a newline. -/
def jsonToCsv (jsonData : List JsonValue) (fields : List String)
    (arrayDelimiter : String) : Except String String :=
  if fields.isEmpty then .error "Invalid input data or fields"
  else
    let parsedFields := fields.map parseField
    let csvHeaders := joinWith "," (parsedFields.map Prod.fst)
    let rows := jsonData.map (fun item =>
      joinWith "," (parsedFields.map (fun f =>
        renderCell arrayDelimiter (resolvePath item (strSplitOn '.' f.2)))))
    .ok (csvHeaders ++ "\n" ++ String.join (rows.map (fun r => r ++ "\n")))

/-! ## Paginated list tools

`GetCollectNotesTool.execute`, `GetUserPostsTool.execute` and
`GetNoteCommentsTool.execute` each drive a cursor-pagination loop over
`httpGet`.  The successive page responses are modelled as an explicit trace
(one element per issued request); when the loop would issue a request past
the end of the trace the model returns an `outOfTrace` artifact.  Each
outcome carries the number of page requests issued. -/

/-- JavaScript truthiness of an optional string field (`undefined` and the
empty string are falsy). -/
def truthyStr : Option String → Bool
  | some s => !(s = "")
  | none => false

/-- JavaScript `v || d` on an optional string: the default replaces both a
missing and an empty value. -/
def orDefault (v : Option String) (d : String) : String :=
  match v with
  | some s => if s = "" then d else s
  | none => d

/-- The `user` sub-object of a raw note, with the two fields the tools
read. -/
structure RawUser where
  userId : Option String
  nickName : Option String
deriving DecidableEq, Repr

/-- A raw note record as delivered by the page endpoints, restricted to the
fields the tools read; `none` models a missing field, and for `noteId` the
source's falsy test also treats the empty string as missing. -/
structure RawNote where
  noteId : Option String
  user : Option RawUser
  displayTitle : Option String
  type : Option String
  xsecToken : Option String
  likedCount : Option Nat
  coverUrlPre : Option String
deriving DecidableEq, Repr

/-- The structured record both note-list tools push into `results`. -/
structure CollectedNote where
  note_id : String
  title : String
  type : String
  user_id : String
  user_nick_name : String
  xsec_token : String
  liked_count : Nat
  cover : String
deriving DecidableEq, Repr

/-- One page response of the note-list endpoints: the `notes` array, the
`hasMore` flag and the `cursor` continuation token. -/
structure CollectPage where
  notes : List RawNote
  hasMore : Bool
  cursor : String
deriving DecidableEq, Repr

/-- The validity filter of `GetCollectNotesTool`:
`if (!note || !note['noteId'] || !note['user']) continue`. -/
def validNote (n : RawNote) : Bool :=
  truthyStr n.noteId && n.user.isSome

/-- The record `GetCollectNotesTool` pushes for a valid raw note. -/
def mkCollectedNote (n : RawNote) : CollectedNote :=
  let u := n.user.getD ⟨none, none⟩
  ⟨n.noteId.getD "",
   orDefault n.displayTitle "Untitled",
   orDefault n.type "unknown",
   orDefault u.userId "unknown",
   orDefault u.nickName "Unknown User",
   orDefault n.xsecToken "",
   n.likedCount.getD 0,
   orDefault n.coverUrlPre ""⟩

/-- The push loop of `GetCollectNotesTool.execute` over one page's `notes`
array: a `for ... of` loop that `break`s once `count > 0` and the desired
count is reached, `continue`s over invalid notes, and otherwise appends the
structured record. -/
def pushNotes (count : Int) : List CollectedNote → List RawNote → List CollectedNote
  | acc, [] => acc
  | acc, n :: rest =>
    if count > 0 ∧ (acc.length : Int) ≥ count then acc
    else if validNote n = false then pushNotes count acc rest
    else pushNotes count (acc ++ [mkCollectedNote n]) rest

/-- Outcome of the `GetCollectNotesTool` pagination loop: the
`maxRequests`-reached error, or the collected items together with the number
of issued page requests; `outOfTrace` is the model artifact for an exhausted
response trace. -/
inductive CollectOutcome where
  | tooManyRequests
  | results (items : List CollectedNote) (requests : Nat)
  | outOfTrace (items : List CollectedNote) (requests : Nat)
deriving DecidableEq, Repr

/-- Shallow embedding of the `while (true)` pagination loop of
`GetCollectNotesTool.execute`: guard `requestCount >= 100`; issue the page
request; break on an empty `notes` array; push the page's notes; break when
`hasMore` is falsy; break when `count !== -1` and enough items are collected;
otherwise sleep and continue with the next page. -/
def collectLoop (count : Int) (pages : List CollectPage) (results : List CollectedNote)
    (requestCount : Nat) : CollectOutcome :=
  if requestCount ≥ 100 then .tooManyRequests
  else
    match pages with
    | [] => .outOfTrace results requestCount
    | p :: rest =>
      if p.notes.isEmpty then .results results (requestCount + 1)
      else
        let results2 := pushNotes count results p.notes
        if p.hasMore = false then .results results2 (requestCount + 1)
        else if count ≠ -1 ∧ (results2.length : Int) ≥ count then
          .results results2 (requestCount + 1)
        else collectLoop count rest results2 (requestCount + 1)

/-- Result of a tool `execute`: an early validation/error message, or the
outcome of the fetch phase. -/
inductive ToolExecResult (α : Type) where
  | message (s : String)
  | fetched (o : α)
deriving DecidableEq, Repr

/-- Shallow embedding of the validation prefix of
`GetCollectNotesTool.execute` followed by its pagination loop: the 24-character
`user_id` check and the `count === 0` check run before any request is
issued. -/
def collectExecute (user_id : String) (count : Int) (pages : List CollectPage) :
    ToolExecResult CollectOutcome :=
  if user_id.length ≠ 24 then
    .message "Error: Invalid user_id format. Must be exactly 24 characters long."
  else if count = 0 then
    .message "Error: Count must be greater than 0 or -1 for all notes."
  else .fetched (collectLoop count pages [] 0)

/-- The record `GetUserPostsTool` pushes for a raw note (no validity filter;
every field falls back to a default under JS `||` / optional chaining). -/
def mkPostedNote (n : RawNote) : CollectedNote :=
  ⟨orDefault n.noteId "",
   orDefault n.displayTitle "",
   orDefault n.type "",
   orDefault (n.user.bind RawUser.userId) "",
   orDefault (n.user.bind RawUser.nickName) "",
   orDefault n.xsecToken "",
   n.likedCount.getD 0,
   orDefault n.coverUrlPre ""⟩

/-- The push step of `GetUserPostsTool.execute`: a `forEach` whose callback
`return`s (i.e. skips, rather than breaking the iteration) once `count > 0`
and the desired count is reached, and otherwise appends the structured
record. -/
def userPostsPush (count : Int) : List CollectedNote → List RawNote → List CollectedNote
  | acc, [] => acc
  | acc, n :: rest =>
    if count > 0 ∧ (acc.length : Int) ≥ count then userPostsPush count acc rest
    else userPostsPush count (acc ++ [mkPostedNote n]) rest

/-- Outcome of the `GetUserPostsTool` pagination loop (no request cap in the
source). -/
inductive UserPostsOutcome where
  | results (items : List CollectedNote) (requests : Nat)
  | outOfTrace (items : List CollectedNote) (requests : Nat)
deriving DecidableEq, Repr

/-- Shallow embedding of the `while (true)` pagination loop of
`GetUserPostsTool.execute`: issue the page request; break on a missing/empty
`notes` array; push the page's notes; break when `hasMore` is falsy; break
when `count !== -1` and enough items are collected; otherwise sleep and
continue. -/
def userPostsLoop (count : Int) (pages : List CollectPage) (acc : List CollectedNote)
    (requests : Nat) : UserPostsOutcome :=
  match pages with
  | [] => .outOfTrace acc requests
  | p :: rest =>
    if p.notes.isEmpty then .results acc (requests + 1)
    else
      let acc2 := userPostsPush count acc p.notes
      if p.hasMore = false then .results acc2 (requests + 1)
      else if count ≠ -1 ∧ (acc2.length : Int) ≥ count then .results acc2 (requests + 1)
      else userPostsLoop count rest acc2 (requests + 1)

/-- Shallow embedding of the validation prefix of `GetUserPostsTool.execute`
(24-character `user_id`, non-blank `xsec_token` — and no check on `count`)
followed by its pagination loop. -/
def userPostsExecute (user_id xsec_token : String) (count : Int)
    (pages : List CollectPage) : ToolExecResult UserPostsOutcome :=
  if user_id.length ≠ 24 then
    .message "Error: Invalid user_id. Must be 24 characters long."
  else if strTrim xsec_token = "" then
    .message "Error: xsec_token is required and cannot be empty."
  else .fetched (userPostsLoop count pages [] 0)

/-- A comment record as handled by the pagination loop of
`GetNoteCommentsTool.execute`; the loop concatenates the page's `comments`
arrays without reading their fields, so the model keeps the identifying `id`
only. -/
structure Comment where
  id : String
deriving DecidableEq, Repr

/-- One page response of the comment-page endpoint as used by the loop. -/
structure CommentPage where
  comments : List Comment
  cursor : String
deriving DecidableEq, Repr

/-- Outcome of the `GetNoteCommentsTool` pagination loop. -/
inductive CommentsOutcome where
  | results (items : List Comment) (requests : Nat)
  | outOfTrace (items : List Comment) (requests : Nat)
deriving DecidableEq, Repr

/-- Shallow embedding of the `while (true)` pagination loop of
`GetNoteCommentsTool.execute`: break before requesting once `count !== -1`
and enough comments are collected; issue the page request; break on a
missing/empty `comments` array; concatenate the page's comments (the loop
never truncates); sleep and continue.  The loop ignores `hasMore` — it stops
only on an empty page or on the count check. -/
def commentsLoop (count : Int) (pages : List CommentPage) (acc : List Comment)
    (requests : Nat) : CommentsOutcome :=
  if count ≠ -1 ∧ (acc.length : Int) ≥ count then .results acc requests
  else
    match pages with
    | [] => .outOfTrace acc requests
    | p :: rest =>
      if p.comments.isEmpty then .results acc (requests + 1)
      else commentsLoop count rest (acc ++ p.comments) (requests + 1)

/-! ## Concrete sample data used to instantiate the proved properties. -/

/-- A page of ten distinct comments, as the comment endpoint returns with
`num=10`-style paging. -/
def sampleComments : List Comment :=
  [⟨"c1"⟩, ⟨"c2"⟩, ⟨"c3"⟩, ⟨"c4"⟩, ⟨"c5"⟩, ⟨"c6"⟩, ⟨"c7"⟩, ⟨"c8"⟩, ⟨"c9"⟩, ⟨"c10"⟩]

/-- A fully populated raw note. -/
def sampleRawNote : RawNote :=
  ⟨some "n1", some ⟨some "u1", some "Nick"⟩, some "Title", some "normal",
   some "tok1", some 3, some "cover1"⟩

/-- A 24-character user id, as the tools require. -/
def sampleUserId : String := "abcdefghijklmnopqrstuvwx"

/-- A valid raw note with the given id. -/
def mkSampleNote (id : String) : RawNote :=
  ⟨some id, some ⟨some "u1", some "Nick"⟩, some "Title", some "normal",
   some "tok1", some 1, some "cover1"⟩

/-- A page of ten distinct valid raw notes, as the note endpoints return with
`num=10`. -/
def sampleNotes : List RawNote :=
  [mkSampleNote "n1", mkSampleNote "n2", mkSampleNote "n3", mkSampleNote "n4",
   mkSampleNote "n5", mkSampleNote "n6", mkSampleNote "n7", mkSampleNote "n8",
   mkSampleNote "n9", mkSampleNote "n10"]

/-! ## Helper lemmas on the push loops -/

/-- For a positive wanted count, pushing a page of valid notes appends
exactly the prefix needed to reach the count. -/
theorem pushNotes_valid_pos (count : Nat) (hc : 0 < count) :
    ∀ (notes : List RawNote) (acc : List CollectedNote),
      (∀ n ∈ notes, validNote n = true) →
      pushNotes (count : Int) acc notes =
        acc ++ (notes.take (count - acc.length)).map mkCollectedNote := by
  intro notes
  induction notes with
  | nil => intro acc _; simp [pushNotes]
  | cons n rest ih =>
    intro acc h
    have hn : validNote n = true := h n (by simp)
    have hrest : ∀ m ∈ rest, validNote m = true := fun m hm => h m (by simp [hm])
    by_cases hlen : acc.length ≥ count
    · have hcond : ((count : Int) > 0 ∧ (acc.length : Int) ≥ (count : Int)) := by
        constructor
        · exact_mod_cast hc
        · exact_mod_cast hlen
      have hz : count - acc.length = 0 := by omega
      simp only [pushNotes, if_pos hcond, hz, List.take_zero, List.map_nil, List.append_nil]
    · push_neg at hlen
      have hcond : ¬ ((count : Int) > 0 ∧ (acc.length : Int) ≥ (count : Int)) := by
        push_neg
        intro _
        exact_mod_cast hlen
      have step : pushNotes (count : Int) acc (n :: rest) =
          pushNotes (count : Int) (acc ++ [mkCollectedNote n]) rest := by
        simp only [pushNotes]
        rw [if_neg hcond, if_neg (by simp [hn])]
      rw [step, ih (acc ++ [mkCollectedNote n]) hrest]
      have harith : count - acc.length = (count - (acc.length + 1)) + 1 := by omega
      rw [harith]
      simp [List.take_succ_cons, List.append_assoc]

/-- For a non-positive wanted count (the `-1` "fetch all" mode), pushing a
page of valid notes appends the whole page. -/
theorem pushNotes_nonpos (count : Int) (hc : ¬ count > 0) :
    ∀ (notes : List RawNote) (acc : List CollectedNote),
      (∀ n ∈ notes, validNote n = true) →
      pushNotes count acc notes = acc ++ notes.map mkCollectedNote := by
  intro notes
  induction notes with
  | nil => intro acc _; simp [pushNotes]
  | cons n rest ih =>
    intro acc h
    have hn : validNote n = true := h n (by simp)
    have hrest : ∀ m ∈ rest, validNote m = true := fun m hm => h m (by simp [hm])
    have hcond : ¬ (count > 0 ∧ (acc.length : Int) ≥ count) := fun hp => hc hp.1
    simp only [pushNotes]
    rw [if_neg hcond, if_neg (by simp [hn]), ih _ hrest]
    simp

/-! ## Claim theorems -/

/-- Claim C1: every remote call whose evaluated response body contains the
rate-limit marker sleeps `2 + retryCount` seconds and retries with
`retryCount + 1`; once `retryCount > 3` the Bridge returns the fixed failure
message instead of retrying; and a call that sees the marker three
consecutive times followed by a clean response succeeds on the 4th attempt
with strictly increasing sleeps 2s, 3s, 4s. -/
theorem evalJs_rate_limit_retry_policy :
    (∀ (steps : List BrowserStep) (t : Nat), t > 3 →
        evalJs steps t = (.failure failureMessage, [])) ∧
    (∀ (steps : List BrowserStep) (t : Nat) (body : String),
        t ≤ 3 → strInfix rateLimitMarker body = true →
        evalJs (.evalResult body :: steps) t =
          ((evalJs steps (t + 1)).1, (2 + t) :: (evalJs steps (t + 1)).2)) ∧
    (∀ (body : String), strInfix rateLimitMarker body = false →
        evalJs [.evalResult rateLimitMarker, .evalResult rateLimitMarker,
                .evalResult rateLimitMarker, .evalResult body] 0 =
          (.value body, [2, 3, 4])) ∧
    List.Chain' (fun a b => a < b) ([2, 3, 4] : List Nat) := by
  have hself : strInfix rateLimitMarker rateLimitMarker = true := by decide
  refine ⟨?_, ?_, ?_, by simp [List.chain'_cons]⟩
  · intro steps t h
    rw [evalJs.eq_def]
    simp [h]
  · intro steps t body ht hm
    have h1 : ¬ t > 3 := by omega
    rw [evalJs.eq_def]
    simp [h1, hm]
  · intro body hb
    rw [evalJs.eq_def]; simp [hself]
    rw [evalJs.eq_def]; simp [hself]
    rw [evalJs.eq_def]; simp [hself]
    rw [evalJs.eq_def]; simp [hb]

/-- Witness for C1: the policy instantiated at retry exhaustion and at the
three-markers-then-clean trace. -/
theorem evalJs_rate_limit_retry_policy_witness :
    evalJs [] 4 = (.failure failureMessage, []) ∧
    evalJs [.evalResult rateLimitMarker, .evalResult rateLimitMarker,
            .evalResult rateLimitMarker, .evalResult "ok"] 0 = (.value "ok", [2, 3, 4]) :=
  ⟨evalJs_rate_limit_retry_policy.1 [] 4 (by decide),
   evalJs_rate_limit_retry_policy.2.2.1 "ok" (by decide)⟩

/-- Claim C2: a remote call started with retryCount 0 that keeps finding the
browser on the verification/captcha page sleeps 3 seconds per iteration and
retries with the same retryCount, for any number of iterations; it never
produces a terminal error while the verification page persists, and succeeds
as soon as a clean response arrives. -/
theorem evalJs_captcha_wait_loop :
    (∀ (n : Nat) (rest : List BrowserStep),
        evalJs (List.replicate n .captchaPage ++ rest) 0 =
          ((evalJs rest 0).1, List.replicate n 3 ++ (evalJs rest 0).2)) ∧
    (∀ (n : Nat),
        evalJs (List.replicate n .captchaPage) 0 = (.outOfTrace, List.replicate n 3)) ∧
    (∀ (n : Nat) (body : String), strInfix rateLimitMarker body = false →
        evalJs (List.replicate n .captchaPage ++ [.evalResult body]) 0 =
          (.value body, List.replicate n 3)) := by
  have h0 : evalJs [] 0 = (.outOfTrace, []) := by
    rw [evalJs.eq_def]; simp
  have main : ∀ (n : Nat) (rest : List BrowserStep),
      evalJs (List.replicate n .captchaPage ++ rest) 0 =
        ((evalJs rest 0).1, List.replicate n 3 ++ (evalJs rest 0).2) := by
    intro n
    induction n with
    | zero => intro rest; simp
    | succ k ih =>
      intro rest
      rw [List.replicate_succ, List.cons_append, evalJs.eq_def]
      simp [ih rest, List.replicate_succ]
  refine ⟨main, ?_, ?_⟩
  · intro n
    have h := main n []
    simp only [List.append_nil] at h
    rw [h, h0]
    simp
  · intro n body hb
    have hclean : evalJs [.evalResult body] 0 = (.value body, []) := by
      rw [evalJs.eq_def]; simp [hb]
    rw [main n [.evalResult body], hclean]
    simp

/-- Witness for C2: two captcha iterations followed by a clean response
succeed with two 3-second sleeps. -/
theorem evalJs_captcha_wait_loop_witness :
    strInfix rateLimitMarker "ok" = false ∧
    evalJs (List.replicate 2 .captchaPage ++ [.evalResult "ok"]) 0 =
      (.value "ok", List.replicate 2 3) :=
  ⟨by decide, evalJs_captcha_wait_loop.2.2 2 "ok" (by decide)⟩

/-- Counterexample to C3 as stated: the cursor-paginated fetch of
`GetNoteCommentsTool` with wantCount 5 and a first page of 10 comments
issues exactly one page request but returns all 10 items — the first page is
not truncated to exactly 5. -/
theorem comments_no_truncation_counterexample :
    commentsLoop 5 [⟨sampleComments, "cursor1"⟩] [] 0 = .results sampleComments 1 ∧
    sampleComments.length = 10 ∧ (10 : Nat) ≠ 5 := by
  refine ⟨by decide, by decide, by decide⟩

/-- Claim C3 (amended): with wantCount 5 and a first page of 10 items,
`GetCollectNotesTool` issues exactly one page request and truncates to
exactly 5 items, while `GetNoteCommentsTool` issues exactly one page request
but returns the full untruncated first page; with wantCount -1,
`GetCollectNotesTool` returns the union of both pages (hasMore true then
false) in two requests, and `GetNoteCommentsTool` returns the union of both
pages, stopping on the following empty page. -/
theorem pagination_count_policy :
    (∀ (p : CollectPage) (rest : List CollectPage),
        p.notes.length = 10 →
        (∀ n ∈ p.notes, validNote n = true) →
        p.hasMore = true →
        collectLoop 5 (p :: rest) [] 0 =
          .results ((p.notes.take 5).map mkCollectedNote) 1 ∧
        ((p.notes.take 5).map mkCollectedNote).length = 5) ∧
    (∀ (p1 p2 : CollectPage),
        p1.notes ≠ [] → p2.notes ≠ [] →
        (∀ n ∈ p1.notes, validNote n = true) →
        (∀ n ∈ p2.notes, validNote n = true) →
        p1.hasMore = true → p2.hasMore = false →
        collectLoop (-1) [p1, p2] [] 0 =
          .results ((p1.notes ++ p2.notes).map mkCollectedNote) 2) ∧
    (∀ (p : CommentPage) (rest : List CommentPage),
        p.comments.length ≥ 5 →
        commentsLoop 5 (p :: rest) [] 0 = .results p.comments 1) ∧
    (∀ (p1 p2 : CommentPage) (c : String) (rest : List CommentPage),
        p1.comments ≠ [] → p2.comments ≠ [] →
        commentsLoop (-1) (p1 :: p2 :: ⟨[], c⟩ :: rest) [] 0 =
          .results (p1.comments ++ p2.comments) 3) := by
  refine ⟨?_, ?_, ?_, ?_⟩
  · intro p rest hlen hvalid hmore
    have hne : p.notes.isEmpty = false := by
      cases hn : p.notes with
      | nil => rw [hn] at hlen; simp at hlen
      | cons a l => simp [hn]
    have hpush := pushNotes_valid_pos 5 (by norm_num) p.notes [] hvalid
    push_cast at hpush
    simp only [List.length_nil, Nat.sub_zero, List.nil_append] at hpush
    have hlen5 : ((p.notes.take 5).map mkCollectedNote).length = 5 := by
      simp [List.length_take, hlen]
    refine ⟨?_, hlen5⟩
    rw [collectLoop.eq_def]
    simp [hne, hpush, hmore, hlen]
  · intro p1 p2 h1 h2 hv1 hv2 hm1 hm2
    have hne1 : p1.notes.isEmpty = false := by simpa [List.isEmpty_iff] using h1
    have hne2 : p2.notes.isEmpty = false := by simpa [List.isEmpty_iff] using h2
    have hneg : ¬ ((-1 : Int) > 0) := by norm_num
    have hp1 := pushNotes_nonpos (-1) hneg p1.notes [] hv1
    simp only [List.nil_append] at hp1
    have hp2 := pushNotes_nonpos (-1) hneg p2.notes (p1.notes.map mkCollectedNote) hv2
    rw [collectLoop.eq_def]
    simp only [hne1, hp1, hm1]
    norm_num
    rw [collectLoop.eq_def]
    simp only [hne2, hp2, hm2]
    norm_num [List.map_append]
  · intro p rest hlen
    have hne : p.comments.isEmpty = false := by
      cases hn : p.comments with
      | nil => rw [hn] at hlen; simp at hlen
      | cons a l => simp [hn]
    have hge : ((p.comments.length : Int)) ≥ 5 := by exact_mod_cast hlen
    rw [commentsLoop.eq_def]
    simp only [hne, List.length_nil, List.nil_append]
    norm_num
    rw [commentsLoop.eq_def]
    simp [hge]
  · intro p1 p2 c rest h1 h2
    have hne1 : p1.comments.isEmpty = false := by simpa [List.isEmpty_iff] using h1
    have hne2 : p2.comments.isEmpty = false := by simpa [List.isEmpty_iff] using h2
    rw [commentsLoop.eq_def]
    simp only [hne1, List.nil_append]
    norm_num
    rw [commentsLoop.eq_def]
    simp only [hne2]
    norm_num
    rw [commentsLoop.eq_def]
    norm_num

/-- Witness for C3 (amended): the policy instantiated on concrete pages of
ten valid notes and ten comments. -/
theorem pagination_count_policy_witness :
    (collectLoop 5 [⟨sampleNotes, true, "cur"⟩] [] 0 =
       .results ((sampleNotes.take 5).map mkCollectedNote) 1 ∧
     ((sampleNotes.take 5).map mkCollectedNote).length = 5) ∧
    commentsLoop 5 [⟨sampleComments, "cur"⟩, ⟨[], "x"⟩] [] 0 =
      .results sampleComments 1 :=
  ⟨pagination_count_policy.1 ⟨sampleNotes, true, "cur"⟩ [] (by decide) (by decide) rfl,
   pagination_count_policy.2.2.1 ⟨sampleComments, "cur"⟩ [⟨[], "x"⟩] (by decide)⟩

/-- Counterexample to C4 as stated: `GetUserPostsTool.execute` invoked with
count 0 passes its validation (which checks only `user_id` and `xsec_token`)
and issues a page request — the outcome records 1 request and the page's
items, not an empty result with no network call. -/
theorem count_zero_counterexample :
    userPostsExecute sampleUserId "tok" 0 [⟨[sampleRawNote], false, ""⟩] =
      .fetched (.results [mkPostedNote sampleRawNote] 1) ∧
    (1 : Nat) ≠ 0 := by
  refine ⟨by decide, by decide⟩

/-- Claim C4 (amended): `GetCollectNotesTool.execute` rejects a requested
count of 0 with a structured error message before issuing any request (the
result does not depend on the page trace), and the pagination loop of
`GetNoteCommentsTool.execute` with count 0 short-circuits with an empty
result after zero requests; `GetUserPostsTool.execute` performs no such
validation (see the counterexample). -/
theorem count_zero_validation :
    (∀ (uid : String) (pages : List CollectPage),
        uid.length = 24 →
        collectExecute uid 0 pages =
          .message "Error: Count must be greater than 0 or -1 for all notes.") ∧
    (∀ (pages : List CommentPage), commentsLoop 0 pages [] 0 = .results [] 0) := by
  constructor
  · intro uid pages h
    simp [collectExecute, h]
  · intro pages
    rw [commentsLoop.eq_def]
    norm_num

/-- Witness for C4 (amended): the validation instantiated at a 24-character
user id and a non-empty page trace. -/
theorem count_zero_validation_witness :
    collectExecute sampleUserId 0 [⟨[sampleRawNote], true, ""⟩] =
      .message "Error: Count must be greater than 0 or -1 for all notes." ∧
    commentsLoop 0 [⟨sampleComments, "c"⟩] [] 0 = .results [] 0 :=
  ⟨count_zero_validation.1 sampleUserId [⟨[sampleRawNote], true, ""⟩] (by decide),
   count_zero_validation.2 [⟨sampleComments, "c"⟩]⟩

/-- Counterexample to C5 as stated: the browsing context `getBrowser`
constructs when none is cached is not hidden — the source passes
`show: true` to the `BrowserWindow` constructor. -/
theorem getBrowser_shown_counterexample :
    ¬ ((getBrowser none).1.shown = false) := by decide

/-- Claim C5 (amended): every call to `getBrowser` returns the existing
browser context unchanged if one exists and is still enabled (so at most one
context exists process-wide); otherwise a new context is constructed
visible (`show: true`) and pointed at the target site's home page. -/
theorem getBrowser_singleton_reuse :
    (∀ (b : BrowserWin), b.enabled = true → getBrowser (some b) = (b, some b)) ∧
    (∀ (b : BrowserWin), b.enabled = false →
        getBrowser (some b) = (newBrowserWindow, some newBrowserWindow)) ∧
    getBrowser none = (newBrowserWindow, some newBrowserWindow) ∧
    newBrowserWindow.shown = true ∧
    newBrowserWindow.url = "https://www.xiaohongshu.com" := by
  refine ⟨?_, ?_, rfl, rfl, rfl⟩
  · intro b h
    simp [getBrowser, h]
  · intro b h
    simp [getBrowser, h]

/-- Witness for C5 (amended): a cached enabled window is returned
unchanged. -/
theorem getBrowser_singleton_reuse_witness :
    getBrowser (some newBrowserWindow) = (newBrowserWindow, some newBrowserWindow) :=
  getBrowser_singleton_reuse.1 newBrowserWindow rfl

/-- Claim C6: an export request with no save directory configured returns a
structured error object with a non-empty message and performs no filesystem
write; with a directory configured it returns an empty error and a link to
the written file. -/
theorem downloadCsvData_error_handling :
    (∀ (name data : String),
        downloadCsvData "" name data = ⟨"未设置数据存储目录", none, none⟩ ∧
        (downloadCsvData "" name data).error ≠ "" ∧
        (downloadCsvData "" name data).written = none) ∧
    (∀ (savePath name data : String), savePath ≠ "" →
        (downloadCsvData savePath name data).error = "" ∧
        (downloadCsvData savePath name data).link =
          some (pathJoin savePath (if strEndsWith name ".csv" then name else name ++ ".csv")) ∧
        (downloadCsvData savePath name data).written =
          some (pathJoin savePath (if strEndsWith name ".csv" then name else name ++ ".csv"),
                data)) := by
  constructor
  · intro name data
    refine ⟨rfl, ?_, rfl⟩
    simp [downloadCsvData]
  · intro savePath name data h
    refine ⟨?_, ?_, ?_⟩ <;> simp [downloadCsvData, h]

/-- Witness for C6: the configured-directory branch instantiated at a
concrete directory, name and payload. -/
theorem downloadCsvData_error_handling_witness :
    (downloadCsvData "dir" "file" "data").error = "" ∧
    (downloadCsvData "dir" "file" "data").link =
      some (pathJoin "dir" (if strEndsWith "file" ".csv" then "file" else "file" ++ ".csv")) ∧
    (downloadCsvData "dir" "file" "data").written =
      some (pathJoin "dir" (if strEndsWith "file" ".csv" then "file" else "file" ++ ".csv"),
            "data") :=
  downloadCsvData_error_handling.2 "dir" "file" "data" (by decide)

/-- Claim C10: with a save directory configured, the written file's path and
the returned link are the save directory joined with the name, with ".csv"
appended exactly when the name does not already end in ".csv". -/
theorem downloadCsvData_csv_extension :
    ∀ (savePath name data : String), savePath ≠ "" →
      (strEndsWith name ".csv" = true →
          (downloadCsvData savePath name data).link = some (pathJoin savePath name)) ∧
      (strEndsWith name ".csv" = false →
          (downloadCsvData savePath name data).link =
            some (pathJoin savePath (name ++ ".csv"))) ∧
      ((downloadCsvData savePath name data).link =
          some (pathJoin savePath (name ++ ".csv")) ↔ strEndsWith name ".csv" = false) ∧
      (downloadCsvData savePath name data).written =
        ((downloadCsvData savePath name data).link).map (fun p => (p, data)) := by
  intro savePath name data h
  refine ⟨?_, ?_, ⟨?_, ?_⟩, ?_⟩
  · intro hend
    simp [downloadCsvData, h, hend]
  · intro hend
    simp [downloadCsvData, h, hend]
  · intro hl
    by_contra hend
    rw [Bool.not_eq_false] at hend
    simp only [downloadCsvData, if_neg h, hend, if_pos] at hl
    have hinj := Option.some.inj hl
    have hlen := congrArg String.length hinj
    simp only [pathJoin, String.length_append] at hlen
    have h4 : (".csv" : String).length = 4 := by decide
    omega
  · intro hend
    simp [downloadCsvData, h, hend]
  · simp [downloadCsvData, h]

/-- Witness for C10: instantiated at a name without the ".csv" suffix. -/
theorem downloadCsvData_csv_extension_witness :
    (strEndsWith "a" ".csv" = true →
        (downloadCsvData "d" "a" "x").link = some (pathJoin "d" "a")) ∧
    (strEndsWith "a" ".csv" = false →
        (downloadCsvData "d" "a" "x").link = some (pathJoin "d" ("a" ++ ".csv"))) ∧
    ((downloadCsvData "d" "a" "x").link = some (pathJoin "d" ("a" ++ ".csv")) ↔
        strEndsWith "a" ".csv" = false) ∧
    (downloadCsvData "d" "a" "x").written =
      ((downloadCsvData "d" "a" "x").link).map (fun p => (p, "x")) :=
  downloadCsvData_csv_extension "d" "a" "x" (by decide)

/-- Claim C7: an array-valued cell is emitted as its elements joined by ";"
(objects inside the array JSON-stringified first, primitives via `String()`),
and a string cell containing a comma, double quote, or newline is wrapped in
double quotes with embedded double quotes doubled — the standard CSV quoting
the source applies after the array join. -/
theorem jsonToCsv_array_join_and_quoting :
    (∀ (ss : List String),
        renderCell ";" (.arr (ss.map JsonValue.str)) = quoteIfNeeded (joinWith ";" ss)) ∧
    (∀ (delim s : String),
        (strContains s ',' || strContains s '\n' || strContains s '\"') = true →
        renderCell delim (.str s) = "\"" ++ String.mk (replaceQuotes s.data) ++ "\"") ∧
    renderCell ";" (.arr [.str "a", .str "b"]) = "a;b" ∧
    renderCell ";" (.arr [.str "a", .num 7, .bool true]) = "a;7;true" ∧
    renderCell ";" (.str "a,b") = "\"a,b\"" ∧
    renderCell ";" (.str "say \"hi\"") = "\"say \"\"hi\"\"\"" ∧
    renderCell ";" (.arr [.obj [("a", .num 1)], .str "x"]) = "\"\x7b\"\"a\"\":1\x7d;x\"" := by
  refine ⟨?_, ?_, by decide, by decide, by decide, by decide, by decide⟩
  · intro ss
    simp only [renderCell, List.map_map]
    have hid : (renderArrayElem ∘ JsonValue.str) = id := by
      funext s
      rfl
    rw [hid, List.map_id]
  · intro delim s hsp
    simp only [renderCell, quoteIfNeeded, if_pos hsp]

/-- Witness for C7: the quoting rule instantiated at a string containing a
comma. -/
theorem jsonToCsv_array_join_and_quoting_witness :
    (strContains "a,b" ',' || strContains "a,b" '\n' || strContains "a,b" '\"') = true ∧
    renderCell ";" (.str "a,b") = "\"" ++ String.mk (replaceQuotes ("a,b").data) ++ "\"" :=
  ⟨by decide, jsonToCsv_array_join_and_quoting.2.1 ";" "a,b" (by decide)⟩

/-- Counterexample to C8 as stated: a dot-path resolving to a nested
non-array object is not JSON-stringified — the object reaches `row.join`
unconverted and is emitted as `[object Object]`. -/
theorem nested_object_cell_counterexample :
    jsonToCsv [.obj [("user", .obj [("id", .str "u1")])]] ["user"] ";" =
      .ok "user\n[object Object]\n" ∧
    jsonStringify (.obj [("id", .str "u1")]) = "\x7b\"id\":\"u1\"\x7d" ∧
    "[object Object]" ≠ "\x7b\"id\":\"u1\"\x7d" := by
  refine ⟨rfl, by decide, by decide⟩

/-- Claim C8 (amended): a field whose dot-separated sourcePath resolves to a
nested non-array object is emitted via the JavaScript default string
conversion as `[object Object]`; JSON-stringification is applied only to
objects occurring inside array-valued cells. -/
theorem nested_object_cell_rendering :
    (∀ (delim : String) (fs : List (String × JsonValue)),
        renderCell delim (.obj fs) = "[object Object]") ∧
    (∀ (fs : List (String × JsonValue)),
        renderArrayElem (.obj fs) = jsonStringify (.obj fs)) :=
  ⟨fun _ _ => rfl, fun _ => rfl⟩

/-- Claim C9: a field-map entry with no "@" separator uses the header itself
as the source path (header `liked_count` reads `row.liked_count`), and a
path descent hitting any missing segment yields the empty string for that
cell. -/
theorem field_path_defaults :
    (∀ (field : String), strSplitOn '@' field = [field] → parseField field = (field, field)) ∧
    parseField "liked_count" = ("liked_count", "liked_count") ∧
    (∀ (fs : List (String × JsonValue)) (part : String) (rest : List String),
        lookupField part fs = none → resolvePath (.obj fs) (part :: rest) = .str "") ∧
    (∀ (s part : String) (rest : List String),
        resolvePath (.str s) (part :: rest) = .str "") ∧
    renderCell ";" (.str "") = "" ∧
    jsonToCsv [.obj [("liked_count", .num 7)]] ["liked_count"] ";" = .ok "liked_count\n7\n" ∧
    jsonToCsv [.obj []] ["liked_count"] ";" = .ok "liked_count\n\n" := by
  refine ⟨?_, by decide, ?_, ?_, by decide, rfl, rfl⟩
  · intro field hsplit
    simp [parseField, hsplit]
  · intro fs part rest hmiss
    simp [resolvePath, hmiss]
  · intro s part rest
    rfl

/-- Witness for C9: the no-"@" rule instantiated at the header
`liked_count`, and a missing-segment descent on an empty object. -/
theorem field_path_defaults_witness :
    strSplitOn '@' "liked_count" = ["liked_count"] ∧
    parseField "liked_count" = ("liked_count", "liked_count") ∧
    resolvePath (.obj []) ("liked_count" :: []) = .str "" :=
  ⟨by decide, field_path_defaults.1 "liked_count" (by decide),
   field_path_defaults.2.2.1 [] "liked_count" [] rfl⟩

end XhsRelay
